import Mathlib

/-!
Verification of the stream-selection and resilient-retry core of the
yt-dlp wrapper (`yt-dlp-wrapper.py`).

The Python source is shallowly embedded below.  Pure helpers
(`detect_platform`, the title/date processing of `create_output_dir`,
the premium-format scan of `check_premium_formats`) become Lean
functions over `String`/`List Char`.  The recursive retry orchestration
`download_video` becomes a function parameterised by an environment
`Env` that supplies the outcome of each external `yt-dlp` subprocess
invocation; the function returns the success flag together with the
ordered list of download invocations it issued.

Python's regular expressions are modelled operationally at the exact
patterns the source uses (`^(\d+)\s+`, `(\d+)x(\d+)`, the CPython
`_strptime` patterns for `%Y%m%d`), and Python string truthiness is
modelled explicitly where the source relies on it.
-/

/-- `startsWithChars pat l` : the character list `l` starts with `pat`. -/
def startsWithChars : List Char → List Char → Bool
  | [], _ => true
  | _ :: _, [] => false
  | a :: as, b :: bs => a = b && startsWithChars as bs

/-- `occursInChars pat l` : `pat` occurs as a contiguous run inside `l`. -/
def occursInChars (pat : List Char) : List Char → Bool
  | [] => startsWithChars pat []
  | b :: bs => startsWithChars pat (b :: bs) || occursInChars pat bs

/-- Python's substring operator `pat in hay` on strings. -/
def strContains (hay pat : String) : Bool :=
  occursInChars pat.data hay.data

/-- The module-level table `SUPPORTED_PLATFORMS` (source lines 40-44);
Python dicts preserve insertion order, so the table is an ordered
association list. -/
def SUPPORTED_PLATFORMS : List (String × List String) :=
  [("youtube", ["youtube.com", "youtu.be"]),
   ("x", ["twitter.com", "x.com"]),
   ("other", [])]

/-- Python's `str.lower()` modelled character-wise (ASCII case folding;
URLs and the table fragments are ASCII). -/
def pyLower (s : String) : String :=
  String.mk (s.data.map Char.toLower)

/-- One platform-table entry matches `url` when one of its host
fragments occurs in the lowercased url (the `any(domain in url_lower
for domain in domains)` test of `detect_platform`). -/
def matches_platform (url : String) (pr : String × List String) : Bool :=
  pr.2.any (fun d => strContains (pyLower url) d)

/-- `VideoDownloader.detect_platform` (source lines 120-126): scan the
platform table in order, return the first entry whose fragment occurs
in the lowercased url, and `"other"` when no entry matches.  A total
pure function. -/
def detect_platform (url : String) : String :=
  match SUPPORTED_PLATFORMS.find? (matches_platform url) with
  | some pr => pr.1
  | none => "other"

/-! ### Output-location builder (`create_output_dir`, source lines 128-152)

Date handling: `datetime.strptime(date_str, '%Y%m%d')` is modelled at
the exactness of CPython's `_strptime` implementation, whose compiled
patterns are `%Y ↦ \d\d\d\d`, `%m ↦ 1[0-2]|0[1-9]|[1-9]`,
`%d ↦ 3[01]|[12]\d|0[1-9]|[1-9]` (alternatives tried in that order,
with regex backtracking across the groups), followed by the
"unconverted data remains" length check (no backtracking on it) and
calendar validation by the `datetime` constructor (year ≥ 1, day within
the month).  Note the month and day patterns also accept single digits,
so e.g. the 7-character `"2024013"` parses as 2024-01-03. -/

/-- Numeric value of a digit character. -/
def dval (c : Char) : Nat := c.toNat - 48

/-- The decimal digit character for `n % 10`. -/
def digitCharOf (n : Nat) : Char :=
  match n % 10 with
  | 0 => '0' | 1 => '1' | 2 => '2' | 3 => '3' | 4 => '4'
  | 5 => '5' | 6 => '6' | 7 => '7' | 8 => '8' | _ => '9'

/-- Two-digit zero-padded decimal rendering (`%m`, `%d` of `strftime`). -/
def pad2 (n : Nat) : String :=
  String.mk [digitCharOf (n / 10), digitCharOf n]

/-- Four-digit decimal rendering (`%Y` of `strftime`, for years 1000-9999). -/
def pad4 (n : Nat) : String :=
  String.mk [digitCharOf (n / 1000), digitCharOf (n / 100),
             digitCharOf (n / 10), digitCharOf n]

/-- Leap-year rule of the Gregorian calendar (as in Python `datetime`). -/
def isLeapYear (y : Nat) : Bool :=
  y % 4 = 0 && (y % 100 ≠ 0 || y % 400 = 0)

/-- Days in a month, as validated by the `datetime` constructor. -/
def daysInMonth (y m : Nat) : Nat :=
  if m = 2 then (if isLeapYear y then 29 else 28)
  else if m = 4 ∨ m = 6 ∨ m = 9 ∨ m = 11 then 30
  else 31

/-- The `%m` pattern `1[0-2]|0[1-9]|[1-9]`: every alternative that
matches a front of the input, in regex alternation order, with the
month value and the rest of the input. -/
def mAlts : List Char → List (Nat × List Char)
  | a :: b :: r =>
    (if a = '1' ∧ (b = '0' ∨ b = '1' ∨ b = '2') then [(10 + dval b, r)] else []) ++
    (if a = '0' ∧ b.isDigit ∧ b ≠ '0' then [(dval b, r)] else []) ++
    (if a.isDigit ∧ a ≠ '0' then [(dval a, b :: r)] else [])
  | [a] => if a.isDigit ∧ a ≠ '0' then [(dval a, [])] else []
  | [] => []

/-- The `%d` pattern `3[01]|[12]\d|0[1-9]|[1-9]`, same conventions as
`mAlts`. -/
def dAlts : List Char → List (Nat × List Char)
  | a :: b :: r =>
    (if a = '3' ∧ (b = '0' ∨ b = '1') then [(30 + dval b, r)] else []) ++
    (if (a = '1' ∨ a = '2') ∧ b.isDigit then [(10 * dval a + dval b, r)] else []) ++
    (if a = '0' ∧ b.isDigit ∧ b ≠ '0' then [(dval b, r)] else []) ++
    (if a.isDigit ∧ a ≠ '0' then [(dval a, b :: r)] else [])
  | [a] => if a.isDigit ∧ a ≠ '0' then [(dval a, [])] else []
  | [] => []

/-- `datetime.strptime(s, '%Y%m%d')`, returning the parsed
(year, month, day) or `none` where Python raises `ValueError`.
Backtracking across the `%m`/`%d` groups is realised by taking the
first `%m` alternative under which some `%d` alternative matches. -/
def strptime_Ymd (s : String) : Option (Nat × Nat × Nat) :=
  match s.data with
  | y1 :: y2 :: y3 :: y4 :: rest =>
    if y1.isDigit ∧ y2.isDigit ∧ y3.isDigit ∧ y4.isDigit then
      let y := 1000 * dval y1 + 100 * dval y2 + 10 * dval y3 + dval y4
      match (mAlts rest).findSome?
          (fun mr => ((dAlts mr.2).head?).map (fun dr => (mr.1, dr))) with
      | some (m, d, r) =>
        if r = [] ∧ 1 ≤ y ∧ d ≤ daysInMonth y m then some (y, m, d) else none
      | none => none
    else none
  | _ => none

/-- The date-formatting step of `create_output_dir` (source lines
130-138): a truthy `date_str` that `strptime` parses is rendered as
`YYYY.MM.DD`; a falsy or unparseable one degrades to `today` (the
current local date, passed in as a parameter since it is ambient
state).  Total: the `ValueError` branch is the `none` case. -/
def date_fmt_of (date_str : Option String) (today : String) : String :=
  match date_str with
  | none => today
  | some s =>
    if s.data.isEmpty then today
    else
      match strptime_Ymd s with
      | some (y, m, d) => pad4 y ++ "." ++ pad2 m ++ "." ++ pad2 d
      | none => today

/-- The character class of the `re.sub` in `create_output_dir` line 141:
`[\\/:*?"<>|]`. -/
def FORBIDDEN_CHARS : List Char :=
  ['\\', '/', ':', '*', '?', '\"', '<', '>', '|']

/-- Whitespace stripped by Python's `str.strip()` (ASCII part; titles
with exotic unicode whitespace are outside the model). -/
def isPyWs (c : Char) : Bool :=
  c = ' ' || c = '\t' || c = '\n' || c = '\r' || c = '\x0b' || c = '\x0c'

/-- `re.sub(r'[\\/:*?"<>|]', '', title)` followed by `.strip()`
(source lines 141-142, before the `[:100]` truncation). -/
def sanitize_strip (title : String) : List Char :=
  (((title.data.filter (fun c => !FORBIDDEN_CHARS.contains c)).dropWhile
      isPyWs).reverse.dropWhile isPyWs).reverse

/-- The cleaned, truncated title of `create_output_dir` (source lines
141-142): strip forbidden characters, trim surrounding whitespace,
then truncate to 100 characters. -/
def clean_title (title : String) : String :=
  String.mk ((sanitize_strip title).take 100)

/-- The destination directory name `f"{date_fmt} - {clean_title}"`
(source line 144). -/
def folder_name (title : String) (date_str : Option String) (today : String) : String :=
  date_fmt_of date_str today ++ " - " ++ clean_title title

/-! ### Premium-format scan (`check_premium_formats`, source lines 154-189) -/

/-- `re.search(r'^(\d+)\s+', line)`: the leading maximal digit run,
provided it is nonempty and followed by a whitespace character (the
regex cannot backtrack into a digit to satisfy `\s`). -/
def leading_id (l : List Char) : Option String :=
  let ds := l.takeWhile Char.isDigit
  if ds.isEmpty then none
  else
    match l.dropWhile Char.isDigit with
    | c :: _ => if isPyWs c then some (String.mk ds) else none
    | [] => none

/-- A `(\d+)x(\d+)` match starting at the head of `l`: since `x` is not
a digit, the first group must be the maximal digit run from the head,
and the second group is the maximal digit run after the `x`.  Returns
`int(group(2))`. -/
def wxh_at (l : List Char) : Option Nat :=
  if (l.takeWhile Char.isDigit).isEmpty then none
  else
    match l.dropWhile Char.isDigit with
    | 'x' :: r =>
      let hs := r.takeWhile Char.isDigit
      if hs.isEmpty then none else some (hs.foldl (fun a c => 10 * a + dval c) 0)
    | _ => none

/-- `re.search(r'(\d+)x(\d+)', line)`: leftmost match — scan every
start position in order. -/
def findWxH : List Char → Option Nat
  | [] => none
  | c :: rest =>
    match wxh_at (c :: rest) with
    | some h => some h
    | none => findWxH rest

/-- One iteration of the `for line in output.split('\n')` loop of
`check_premium_formats` (source lines 168-182), acting on the
accumulator `(best_premium_id, best_height)`. -/
def premium_step (st : Option String × Nat) (line : String) : Option String × Nat :=
  if strContains line "Premium" = false then st
  else
    match leading_id line.data with
    | none => st
    | some fid =>
      let height := (findWxH line.data).getD 0
      if st.2 < height then (some fid, height) else st

/-- Python's `output.split('\n')`, character-wise. -/
def splitLines (l : List Char) : List (List Char) :=
  match l with
  | [] => [[]]
  | c :: rest =>
    if c = '\n' then [] :: splitLines rest
    else
      match splitLines rest with
      | [] => [[c]]
      | h :: t => (c :: h) :: t

/-- The lines of the raw listing, as strings. -/
def pyLines (output : String) : List String :=
  (splitLines output.data).map String.mk

/-- The full scan of `check_premium_formats` over the raw `-F` listing,
starting from `best_premium_id = None`, `best_height = 0`. -/
def best_premium_scan (output : String) : Option String × Nat :=
  (pyLines output).foldl premium_step (none, 0)

/-- The pure core of `VideoDownloader.check_premium_formats` given the
raw format listing: `None` when no best premium id was recorded,
otherwise the selector `f"{best_premium_id}+bestaudio/best"`
(source lines 184-189). -/
def check_premium_formats (output : String) : Option String :=
  match (best_premium_scan output).1 with
  | none => none
  | some fid => some (fid ++ "+bestaudio/best")

/-- The premium-tier candidate carried by one listing line — its
leading numeric identifier paired with its parsed `WxH` height (0 when
absent) — provided the line contains the `Premium` marker. -/
def cand_of (line : String) : Option (String × Nat) :=
  if strContains line "Premium" = false then none
  else (leading_id line.data).map (fun fid => (fid, (findWxH line.data).getD 0))

/-- The premium-tier candidates of a listing, in line order. -/
def premium_candidates (output : String) : List (String × Nat) :=
  (pyLines output).filterMap cand_of

/-- The accumulator update of the scan, expressed on a candidate. -/
def cand_step (st : Option String × Nat) (c : String × Nat) : Option String × Nat :=
  if st.2 < c.2 then (some c.1, c.2) else st

/-! ### SeparateStreams selection (spec §4.3)

The repository source under `src/` contains no `SeparateStreams`
selector (the spec describes it for an evolutionary variant of the
wrapper that is not present); the definitions in this subsection are
therefore modelled from the spec. -/

/-- Modelled from the spec: the `container` field of a `FormatRecord`
(spec §3) — the source file carrying the catalog parser is missing from
`src/`. -/
inductive Container where
  | mp4
  | m4a
  | other
deriving DecidableEq

/-- Modelled from the spec: one entry of a parsed stream catalog
(spec §3 `FormatRecord`) — the source file carrying it is missing from
`src/`. -/
structure FormatRecord where
  id : String
  container : Container
  bitrateKbps : Nat
  resolutionHeight : Nat
  isPremiumTier : Bool
deriving DecidableEq

/-- One step of the highest-bitrate reduction: replace the current best
only on a strictly greater bitrate, so ties keep the first-seen
record. -/
def best_step (best : Option FormatRecord) (r : FormatRecord) : Option FormatRecord :=
  match best with
  | none => some r
  | some b => if b.bitrateKbps < r.bitrateKbps then some r else some b

/-- Modelled from the spec: reduce a record list to its
highest-`bitrateKbps` record, ties broken by first-seen order
(spec §4.3 `SeparateStreams`). -/
def bestByBitrate (l : List FormatRecord) : Option FormatRecord :=
  l.foldl best_step none

/-- Modelled from the spec: `SeparateStreams` selection — the
highest-bitrate video (mp4) record and the highest-bitrate audio (m4a)
record independently; "no suitable stream" (`none`) when either set is
empty (spec §4.3). -/
def selectSeparateStreams (catalog : List FormatRecord) :
    Option (FormatRecord × FormatRecord) :=
  match bestByBitrate (catalog.filter (fun r => decide (r.container = Container.mp4))),
        bestByBitrate (catalog.filter (fun r => decide (r.container = Container.m4a))) with
  | some v, some a => some (v, a)
  | some _, none => none
  | none, _ => none

/-- The spec's §8 scenario catalog for `SeparateStreams`. -/
def c7_catalog : List FormatRecord :=
  [⟨"140", Container.m4a, 128, 0, false⟩,
   ⟨"137", Container.mp4, 4500, 1080, false⟩,
   ⟨"18", Container.mp4, 700, 360, false⟩]

/-! ### Download orchestration (`download_video`, source lines 191-322)

`VideoDownloader.download_video(url, extra_args, format_selector,
youtube_client, try_sabr, try_fallback_clients, prefer_premium)` is
embedded as a function on an `Attempt` record holding exactly those
parameters.  External effects are collected in an `Env`:
`Env.listing url` is the output of the `-F` subprocess used by
`check_premium_formats` (`none` for a failed or empty query), and
`Env.run a` is the outcome of the final download subprocess for the
invocation parameters `a` (the built command is a function of `a` and
the environment, so an outcome per `Attempt` is fully general; all
invocations within one job carry distinct parameter records).  The
metadata fetch and output-directory creation (lines 216-223) influence
neither the control flow nor any claim and are elided.

The Python recursion is depth-bounded: every recursive call passes
`try_fallback_clients=False`, and with that flag cleared the function
performs exactly one download invocation (it can never enter the
fallback branch).  The embedding exploits this: `run_ok` is the result
of such a no-fallback recursive call, and the lemma
`download_video_no_fallback` proves the equivalence.  `download_video`
returns the Python boolean result together with the ordered list of
download invocations performed. -/

/-- The module-level list `YOUTUBE_CLIENTS` (source lines 32-38). -/
def YOUTUBE_CLIENTS : List String :=
  ["web", "android", "tv", "web_music", "android_music"]

/-- The module-level `DEFAULT_FORMAT_SELECTOR` (source lines 23-29). -/
def DEFAULT_FORMAT_SELECTOR : String :=
  "bestvideo[height<=2160][vcodec~=\x27^(av01|vp9|avc1)\x27]+bestaudio/" ++
  "bestvideo[height<=1440][vcodec~=\x27^(av01|vp9|avc1)\x27]+bestaudio/" ++
  "bestvideo[height<=1080][vcodec~=\x27^(av01|vp9|avc1)\x27]+bestaudio/" ++
  "bestvideo[height<=720][vcodec~=\x27^(av01|vp9|avc1)\x27]+bestaudio/" ++
  "best[ext=mp4]/best"

/-- The SABR-restriction phrases tested against the captured error
output (source lines 275-278). -/
def SABR_PHRASES : List String :=
  ["web client https formats require a GVS PO Token",
   "YouTube is forcing SABR streaming",
   "only SABR formats"]

/-- The substring filtered out of forwarded extra arguments (source
lines 289 and 305). -/
def extractor_args_token : String := "--extractor-args"

/-- Python truthiness of an `Optional[str]`: `None` and `""` are
falsy. -/
def pyFalsyStr (s : Option String) : Bool :=
  match s with
  | none => true
  | some s => s.data.isEmpty

/-- Python's `a or b` on an `Optional[str]` and a default. -/
def py_or (a : Option String) (b : String) : String :=
  match a with
  | none => b
  | some s => if s.data.isEmpty then b else s

/-- The parameters of one `download_video` invocation. -/
structure Attempt where
  url : String
  extra_args : List String
  format_selector : Option String
  youtube_client : Option String
  try_sabr : Bool
  try_fallback_clients : Bool
  prefer_premium : Bool
deriving DecidableEq

/-- Outcome of the download subprocess (source lines 266-271, 320-322):
success, `CalledProcessError` carrying `e.stderr` (which may be
`None`), or `TimeoutExpired`. -/
inductive RunResult where
  | success
  | failed (stderr : Option String)
  | timeout
deriving DecidableEq

/-- The external world of one download job. -/
structure Env where
  listing : String → Option String
  run : Attempt → RunResult

/-- `check_premium_formats` including its `-F` subprocess (source lines
154-162): a failed or empty listing query yields `None`, otherwise the
pure scan runs on the output. -/
def check_premium_env (env : Env) (url : String) : Option String :=
  match env.listing url with
  | none => none
  | some out => if out.data.isEmpty then none else check_premium_formats out

/-- The format-selector resolution at the top of `download_video`
(source lines 205-213): on a YouTube URL with `prefer_premium` and a
falsy `format_selector`, a truthy premium selector (if found) replaces
it; a `format_selector` that is still `None` afterwards becomes the
default selector (note: `is None`, so an explicit `""` survives). -/
def resolve_selector (env : Env) (url : String) (fs : Option String) (pp : Bool) : String :=
  let fs1 : Option String :=
    if detect_platform url = "youtube" ∧ pp = true ∧ pyFalsyStr fs = true then
      match check_premium_env env url with
      | some pf => if pf.data.isEmpty then fs else some pf
      | none => fs
    else fs
  match fs1 with
  | some s => s
  | none => DEFAULT_FORMAT_SELECTOR

/-- `sabr_related` of source lines 274-280: the failure is
SABR-related when the platform is YouTube and the captured error output
contains one of the known phrases. -/
def sabr_related (url err : String) : Bool :=
  decide (detect_platform url = "youtube") && SABR_PHRASES.any (fun p => strContains err p)

/-- Result of a recursive `download_video` call with
`try_fallback_clients=False`: such a call performs its single download
invocation and returns its success (see `download_video_no_fallback`). -/
def run_ok (env : Env) (b : Attempt) : Bool :=
  match env.run b with
  | RunResult.success => true
  | RunResult.failed _ => false
  | RunResult.timeout => false

/-- The invocation parameters of one fallback retry (source lines
292-299 and 307-314): same url, extra arguments filtered of
`--extractor-args`, the already-resolved format selector, the given
client, the given SABR flag, fallback recursion disabled, and
`prefer_premium` left at its default `True`. -/
def retry_attempt (env : Env) (a : Attempt) (c : Option String) (sbr : Bool) : Attempt :=
  { url := a.url
    extra_args := a.extra_args.filter (fun x => !(strContains x extractor_args_token))
    format_selector := some (resolve_selector env a.url a.format_selector a.prefer_premium)
    youtube_client := c
    try_sabr := sbr
    try_fallback_clients := false
    prefer_premium := true }

/-- `available_clients = [c for c in YOUTUBE_CLIENTS if c != youtube_client]`
(source line 284): every known client except the one already tried
(`c != None` is always true, so a falsy client excludes nothing). -/
def avail_clients (a : Attempt) : List String :=
  YOUTUBE_CLIENTS.filter (fun c => decide (a.youtube_client ≠ some c))

/-- The `for client in available_clients` loop (source lines 286-300):
one full no-fallback attempt per client, in order, returning at the
first success; returns the success flag and the invocations issued. -/
def try_clients (env : Env) (a : Attempt) : List String → Bool × List Attempt
  | [] => (false, [])
  | c :: cs =>
    if run_ok env (retry_attempt env a (some c) false) then
      (true, [retry_attempt env a (some c) false])
    else
      ((try_clients env a cs).1, retry_attempt env a (some c) false :: (try_clients env a cs).2)

/-- `VideoDownloader.download_video` (source lines 191-322): the
success flag and the ordered list of download invocations issued.  On a
`CalledProcessError` from a YouTube URL with fallback enabled and
(SABR-related diagnostic or falsy client) the alternate clients are
tried in order; if all fail and the failure was SABR-related with
`try_sabr` not yet set, one final attempt runs with SABR enabled and
client `youtube_client or 'web'`.  A `TimeoutExpired` returns `False`
directly (source lines 320-322). -/
def download_video (env : Env) (a : Attempt) : Bool × List Attempt :=
  match env.run a with
  | RunResult.success => (true, [a])
  | RunResult.timeout => (false, [a])
  | RunResult.failed st =>
    if detect_platform a.url = "youtube" ∧ a.try_fallback_clients = true ∧
        (sabr_related a.url (st.getD "") = true ∨ pyFalsyStr a.youtube_client = true) then
      let r := try_clients env a (avail_clients a)
      if r.1 = true then (true, a :: r.2)
      else if sabr_related a.url (st.getD "") = true ∧ a.try_sabr = false then
        (run_ok env (retry_attempt env a (some (py_or a.youtube_client "web")) true),
         a :: r.2 ++ [retry_attempt env a (some (py_or a.youtube_client "web")) true])
      else (false, a :: r.2)
    else (false, [a])

/-- A job environment in which every download invocation fails with the
SABR diagnostic and the `-F` listing query fails. -/
def env_sabr_fail : Env :=
  ⟨fun _ => none, fun _ => RunResult.failed (some "only SABR formats")⟩

/-- A job environment in which exactly the `android`-client invocations
succeed and every other invocation fails with an empty diagnostic. -/
def env_android_ok : Env :=
  ⟨fun _ => none,
   fun b => if b.youtube_client = some "android" then RunResult.success
            else RunResult.failed (some "")⟩

/-- A primary invocation on a YouTube URL with no explicit client,
fallback enabled. -/
def att_none : Attempt :=
  ⟨"https://www.youtube.com/watch?v=abc", ["-x"], none, none, false, true, true⟩

/-- A primary invocation on a YouTube URL with the explicit client
`android`, fallback enabled. -/
def att_android : Attempt :=
  ⟨"https://www.youtube.com/watch?v=abc", [], none, some "android", false, true, true⟩

/-- A primary invocation on a YouTube URL whose extra pass-through
arguments contain an `--extractor-args` item. -/
def att_xargs : Attempt :=
  ⟨"https://www.youtube.com/watch?v=abc",
   ["--extractor-args", "youtube:player-client=web", "-x"], none, none, false, true, true⟩

/-- Generic first-match characterisation of `List.find?`. -/
theorem find?_eq_of_first {α : Type} (p : α → Bool) (l : List α) :
    ∀ (i : Nat) (x : α), l.get? i = some x → p x = true →
      (∀ j y, j < i → l.get? j = some y → p y = false) →
      l.find? p = some x := by
  induction l with
  | nil => intro i x hx _ _; simp at hx
  | cons a t ih =>
    intro i x hx hpx hprev
    cases i with
    | zero =>
      injection hx with hx
      subst hx
      simp [List.find?, hpx]
    | succ n =>
      have ha : p a = false := hprev 0 a (Nat.succ_pos n) rfl
      rw [List.find?]
      rw [ha]
      exact ih n x hx hpx (fun j y hj hy => hprev (j + 1) y (Nat.succ_lt_succ hj) hy)

/-- Claim C6: platform classification is a pure total function (a Lean
`def`) that checks the URL against the fixed platform table in its
stable order, first match winning, and returns `"other"` when no host
fragment of any platform occurs in the (lowercased) URL. -/
theorem detect_platform_spec :
    (∀ url, (∀ pr ∈ SUPPORTED_PLATFORMS, matches_platform url pr = false) →
       detect_platform url = "other") ∧
    (∀ url i pr, SUPPORTED_PLATFORMS.get? i = some pr →
       matches_platform url pr = true →
       (∀ j pr', j < i → SUPPORTED_PLATFORMS.get? j = some pr' →
          matches_platform url pr' = false) →
       detect_platform url = pr.1) := by
  constructor
  · intro url h
    unfold detect_platform
    rw [List.find?_eq_none.mpr (fun x hx => by simp [h x hx])]
  · intro url i pr hget hm hprev
    unfold detect_platform
    rw [find?_eq_of_first (matches_platform url) SUPPORTED_PLATFORMS i pr hget hm hprev]

/-- Witness for C6 at concrete inputs: a URL containing no known host
fragment classifies as `"other"`, and a URL whose lowercase form
contains `youtu.be` classifies as `"youtube"` (first table entry). -/
theorem detect_platform_spec_witness :
    detect_platform "ftp://example.org/video" = "other" ∧
    detect_platform "HTTPS://YouTu.be/abc" = "youtube" := by
  constructor
  · exact detect_platform_spec.1 "ftp://example.org/video" (by decide)
  · exact detect_platform_spec.2 "HTTPS://YouTu.be/abc" 0
      ("youtube", ["youtube.com", "youtu.be"]) (by decide) (by decide)
      (fun j pr' hj _ => absurd hj (Nat.not_lt_zero j))

theorem isDigit_digitCharOf (n : Nat) : (digitCharOf n).isDigit = true := by
  unfold digitCharOf
  have h : n % 10 < 10 := Nat.mod_lt _ (by omega)
  interval_cases h' : n % 10 <;> rfl

theorem dval_digitCharOf (n : Nat) : dval (digitCharOf n) = n % 10 := by
  unfold digitCharOf
  have h : n % 10 < 10 := Nat.mod_lt _ (by omega)
  interval_cases h' : n % 10 <;> rfl

theorem daysInMonth_le_31 (y m : Nat) : daysInMonth y m ≤ 31 := by
  unfold daysInMonth
  split <;> try split
  all_goals omega

/-- On a zero-padded two-digit day (1-31) the `%d` pattern's first
matching alternative yields exactly that day and consumes both
characters. -/
theorem dAlts_pad (d : Nat) (h1 : 1 ≤ d) (h2 : d ≤ 31) (r : List Char) :
    (dAlts (digitCharOf (d / 10) :: digitCharOf d :: r)).head? = some (d, r) := by
  interval_cases d <;> rfl

/-- On a zero-padded valid month followed by a zero-padded valid day the
`%m%d` group matching of `strptime_Ymd` succeeds with exactly those
values and consumes the whole input. -/
theorem mAlts_pad (m d : Nat) (hm1 : 1 ≤ m) (hm2 : m ≤ 12) (hd1 : 1 ≤ d) (hd2 : d ≤ 31) :
    (mAlts [digitCharOf (m / 10), digitCharOf m, digitCharOf (d / 10), digitCharOf d]).findSome?
      (fun mr => ((dAlts mr.2).head?).map (fun dr => (mr.1, dr))) = some (m, d, []) := by
  have hd := dAlts_pad d hd1 hd2 []
  revert hd
  generalize digitCharOf (d / 10) = x
  generalize digitCharOf d = z
  intro hd
  interval_cases m <;> simp [mAlts, digitCharOf, List.findSome?, hd, dval]

/-- `strptime('%Y%m%d')` accepts every properly zero-padded valid date
with a four-digit year and returns its components. -/
theorem strptime_Ymd_pad (y m d : Nat) (hy1 : 1000 ≤ y) (hy2 : y ≤ 9999)
    (hm1 : 1 ≤ m) (hm2 : m ≤ 12) (hd1 : 1 ≤ d) (hd2 : d ≤ daysInMonth y m) :
    strptime_Ymd (pad4 y ++ pad2 m ++ pad2 d) = some (y, m, d) := by
  have hdata : (pad4 y ++ pad2 m ++ pad2 d).data =
      [digitCharOf (y / 1000), digitCharOf (y / 100), digitCharOf (y / 10), digitCharOf y,
       digitCharOf (m / 10), digitCharOf m, digitCharOf (d / 10), digitCharOf d] := rfl
  have hyval : 1000 * dval (digitCharOf (y / 1000)) + 100 * dval (digitCharOf (y / 100)) +
      10 * dval (digitCharOf (y / 10)) + dval (digitCharOf y) = y := by
    rw [dval_digitCharOf, dval_digitCharOf, dval_digitCharOf, dval_digitCharOf]
    omega
  unfold strptime_Ymd
  rw [hdata]
  simp only [isDigit_digitCharOf, and_self, if_true]
  rw [mAlts_pad m d hm1 hm2 hd1 (le_trans hd2 (daysInMonth_le_31 y m))]
  simp only [hyval]
  rw [if_pos ⟨trivial, by omega, hd2⟩]

/-- Claim C8 (amended): the date stamp is handled totally; an absent or
unparseable stamp degrades to the current date, and every stamp that
CPython's `strptime('%Y%m%d')` accepts — in particular every properly
zero-padded 8-digit valid date (years 1000-9999 shown here) — is
reformatted as `YYYY.MM.DD`.  (The original claim's "otherwise use the
current date" fails for lax-but-parseable stamps such as `"2024013"`,
see the counterexample.) -/
theorem date_fmt_of_spec :
    (∀ today, date_fmt_of none today = today) ∧
    (∀ s today, strptime_Ymd s = none → date_fmt_of (some s) today = today) ∧
    (∀ y m d today, 1000 ≤ y → y ≤ 9999 → 1 ≤ m → m ≤ 12 → 1 ≤ d →
       d ≤ daysInMonth y m →
       date_fmt_of (some (pad4 y ++ pad2 m ++ pad2 d)) today =
         pad4 y ++ "." ++ pad2 m ++ "." ++ pad2 d) := by
  refine ⟨fun today => rfl, ?_, ?_⟩
  · intro s today h
    show (if s.data.isEmpty = true then today
          else match strptime_Ymd s with
               | some (y, m, d) => pad4 y ++ "." ++ pad2 m ++ "." ++ pad2 d
               | none => today) = today
    by_cases he : s.data.isEmpty = true
    · rw [if_pos he]
    · rw [if_neg he, h]
  · intro y m d today hy1 hy2 hm1 hm2 hd1 hd2
    show (if (pad4 y ++ pad2 m ++ pad2 d).data.isEmpty = true then today
          else match strptime_Ymd (pad4 y ++ pad2 m ++ pad2 d) with
               | some (y, m, d) => pad4 y ++ "." ++ pad2 m ++ "." ++ pad2 d
               | none => today) = pad4 y ++ "." ++ pad2 m ++ "." ++ pad2 d
    rw [if_neg (by rw [show (pad4 y ++ pad2 m ++ pad2 d).data.isEmpty = false from rfl]; simp)]
    rw [strptime_Ymd_pad y m d hy1 hy2 hm1 hm2 hd1 hd2]

/-- Witness for C8 at a concrete date stamp. -/
theorem date_fmt_of_spec_witness :
    date_fmt_of (some (pad4 2024 ++ pad2 1 ++ pad2 31)) "2025.10.12" =
      pad4 2024 ++ "." ++ pad2 1 ++ "." ++ pad2 31 :=
  date_fmt_of_spec.2.2 2024 1 31 "2025.10.12" (by decide) (by decide) (by decide)
    (by decide) (by decide) (by decide)

theorem head?_dropWhile_not {α : Type} (p : α → Bool) (l : List α) :
    ∀ c, (l.dropWhile p).head? = some c → p c = false := by
  induction l with
  | nil => intro c h; simp [List.dropWhile] at h
  | cons a t ih =>
    intro c h
    rw [List.dropWhile_cons] at h
    by_cases hpa : p a = true
    · rw [if_pos hpa] at h
      exact ih c h
    · rw [if_neg hpa] at h
      injection h with h
      subst h
      exact Bool.not_eq_true _ ▸ hpa

theorem head?_take_100 {α : Type} (l : List α) (c : α) (h : (l.take 100).head? = some c) :
    l.head? = some c := by
  cases l with
  | nil => simp at h
  | cons a t => simpa using h

/-- `sanitize_strip` produces a front part (initial segment) of the
left-stripped, filtered character list. -/
theorem sanitize_strip_front (title : String) :
    sanitize_strip title <+:
      ((title.data.filter (fun c => !FORBIDDEN_CHARS.contains c)).dropWhile isPyWs) := by
  unfold sanitize_strip
  have h := ((List.dropWhile_suffix isPyWs).reverse :
    (((title.data.filter (fun c => !FORBIDDEN_CHARS.contains c)).dropWhile
        isPyWs).reverse.dropWhile isPyWs).reverse <+:
      ((title.data.filter (fun c => !FORBIDDEN_CHARS.contains c)).dropWhile
        isPyWs).reverse.reverse)
  rwa [List.reverse_reverse] at h

/-- Claim C9 (amended): the cleaned title contains none of the
forbidden characters `\ / : * ? " < > |`, starts with no whitespace,
and is at most 100 characters long; it ends with no whitespace
whenever the stripped title fits inside the 100-character bound (the
truncation, which the code applies after stripping, can reintroduce a
trailing space — see the counterexample). -/
theorem clean_title_spec (title : String) :
    (∀ c ∈ (clean_title title).data, c ∉ FORBIDDEN_CHARS) ∧
    (∀ c, (clean_title title).data.head? = some c → isPyWs c = false) ∧
    (clean_title title).data.length ≤ 100 ∧
    ((sanitize_strip title).length ≤ 100 →
      ∀ c, (clean_title title).data.getLast? = some c → isPyWs c = false) := by
  have hdata : (clean_title title).data = (sanitize_strip title).take 100 := rfl
  refine ⟨?_, ?_, ?_, ?_⟩
  · intro c hc
    rw [hdata] at hc
    have h1 : c ∈ sanitize_strip title := List.take_subset 100 _ hc
    have h2 : c ∈ (title.data.filter (fun c => !FORBIDDEN_CHARS.contains c)).dropWhile isPyWs :=
      (sanitize_strip_front title).subset h1
    have h3 : c ∈ title.data.filter (fun c => !FORBIDDEN_CHARS.contains c) :=
      (List.dropWhile_sublist _).subset h2
    have h4 := (List.mem_filter.mp h3).2
    simpa using h4
  · intro c hc
    rw [hdata] at hc
    have h1 : (sanitize_strip title).head? = some c := head?_take_100 _ c hc
    obtain ⟨t, ht⟩ := sanitize_strip_front title
    cases hs : sanitize_strip title with
    | nil => rw [hs] at h1; simp at h1
    | cons a u =>
      rw [hs] at h1
      injection h1 with h1
      subst h1
      rw [hs] at ht
      exact head?_dropWhile_not isPyWs _ a (by rw [← ht]; rfl)
  · rw [hdata]
    simp
  · intro hlen c hc
    rw [hdata, List.take_of_length_le hlen] at hc
    rw [← List.head?_reverse] at hc
    unfold sanitize_strip at hc
    rw [List.reverse_reverse] at hc
    exact head?_dropWhile_not isPyWs _ c hc

/-- Witness for C9 at a concrete title containing forbidden characters
and surrounding whitespace. -/
theorem clean_title_spec_witness :
    (∀ c ∈ (clean_title "  Report: Q3 / Final?  ").data, c ∉ FORBIDDEN_CHARS) ∧
    (∀ c, (clean_title "  Report: Q3 / Final?  ").data.getLast? = some c → isPyWs c = false) :=
  ⟨(clean_title_spec "  Report: Q3 / Final?  ").1,
   (clean_title_spec "  Report: Q3 / Final?  ").2.2.2 (by decide)⟩

/-- Counterexample to C9 as stated: for a title of 99 `a`s followed by
`" b"`, the stripped title has 101 characters, so the `[:100]`
truncation (applied after `.strip()`) cuts it to 99 `a`s and a space —
the cleaned title ends in whitespace. -/
theorem clean_title_counterexample :
    (clean_title (String.mk (List.replicate 99 'a') ++ " b")).data.getLast? = some ' ' ∧
    isPyWs ' ' = true := by
  constructor
  · decide
  · rfl

/-- Counterexample to C8 as stated: the 7-character stamp `"2024013"`
does not "parse as an 8-digit YYYYMMDD date", yet the code does not
fall back to the current date — CPython's `%m`/`%d` patterns accept
single digits, so it is reformatted as `2024.01.03`. -/
theorem date_fmt_of_counterexample :
    ("2024013" : String).data.length = 7 ∧
    date_fmt_of (some "2024013") "1999.09.09" = "2024.01.03" ∧
    ("2024.01.03" : String) ≠ "1999.09.09" := by
  refine ⟨rfl, by decide, by decide⟩

theorem premium_step_eq_cand (st : Option String × Nat) (line : String) :
    premium_step st line =
      match cand_of line with
      | none => st
      | some c => cand_step st c := by
  unfold premium_step cand_of cand_step
  by_cases h : strContains line "Premium" = false
  · rw [if_pos h, if_pos h]
  · rw [if_neg h, if_neg h]
    cases leading_id line.data with
    | none => rfl
    | some fid => rfl

theorem scan_eq_cand (lines : List String) :
    ∀ st : Option String × Nat,
      lines.foldl premium_step st = (lines.filterMap cand_of).foldl cand_step st := by
  induction lines with
  | nil => intro st; rfl
  | cons a t ih =>
    intro st
    rw [List.foldl_cons, premium_step_eq_cand]
    cases h : cand_of a with
    | none => rw [List.filterMap_cons_none h]; exact ih st
    | some c => rw [List.filterMap_cons_some h, List.foldl_cons]; exact ih (cand_step st c)

/-- The scan accumulator is a strict first-seen running maximum: either
no candidate exceeds the starting height (accumulator unchanged), or
the result is the first candidate attaining the overall maximum. -/
theorem cand_foldl_spec (cs : List (String × Nat)) :
    ∀ b : Option String × Nat,
      (cs.foldl cand_step b = b ∧ ∀ c ∈ cs, c.2 ≤ b.2) ∨
      (∃ i c, cs.get? i = some c ∧ cs.foldl cand_step b = (some c.1, c.2) ∧ b.2 < c.2 ∧
        (∀ j c', j < i → cs.get? j = some c' → c'.2 < c.2) ∧ (∀ c' ∈ cs, c'.2 ≤ c.2)) := by
  induction cs with
  | nil => intro b; left; exact ⟨rfl, by simp⟩
  | cons c cs ih =>
    intro b
    rw [List.foldl_cons]
    by_cases h : b.2 < c.2
    · have hstep : cand_step b c = (some c.1, c.2) := by unfold cand_step; rw [if_pos h]
      rw [hstep]
      rcases ih (some c.1, c.2) with ⟨heq, hall⟩ | ⟨i, c', hg, he, hlt, hprev, hall⟩
      · right
        refine ⟨0, c, rfl, ?_, h, ?_, ?_⟩
        · rw [heq]
        · intro j c' hj _; omega
        · intro c' hc'
          rcases List.mem_cons.mp hc' with rfl | hmem
          · exact le_refl _
          · exact hall c' hmem
      · right
        refine ⟨i + 1, c', hg, he, lt_trans h hlt, ?_, ?_⟩
        · intro j x hj hx
          cases j with
          | zero => injection hx with hx; subst hx; exact hlt
          | succ n => exact hprev n x (Nat.lt_of_succ_lt_succ hj) hx
        · intro x hx
          rcases List.mem_cons.mp hx with rfl | hmem
          · exact le_of_lt hlt
          · exact hall x hmem
    · have hstep : cand_step b c = b := by unfold cand_step; rw [if_neg h]
      rw [hstep]
      have hcb : c.2 ≤ b.2 := Nat.le_of_not_lt h
      rcases ih b with ⟨heq, hall⟩ | ⟨i, c', hg, he, hlt, hprev, hall⟩
      · left
        refine ⟨heq, ?_⟩
        intro x hx
        rcases List.mem_cons.mp hx with rfl | hmem
        · exact hcb
        · exact hall x hmem
      · right
        refine ⟨i + 1, c', hg, he, hlt, ?_, ?_⟩
        · intro j x hj hx
          cases j with
          | zero => injection hx with hx; subst hx; exact lt_of_le_of_lt hcb hlt
          | succ n => exact hprev n x (Nat.lt_of_succ_lt_succ hj) hx
        · intro x hx
          rcases List.mem_cons.mp hx with rfl | hmem
          · exact le_of_lt (lt_of_le_of_lt hcb hlt)
          · exact hall x hmem

/-- Claim C5 (amended): the premium scan returns the identifier (as the
selector `id+bestaudio/best`) of the first premium-tier entry with the
greatest *positive* `WxH` height, and returns nothing when every
premium-tier entry has height 0 (in particular when there are none) —
entries whose lines carry no `WxH` pattern can never be selected,
because the running maximum starts at 0 and is only updated on a
strictly greater height.  (The original claim — greatest height with 0
for an absent pattern — fails when all premium entries lack a
resolution; see the counterexample.) -/
theorem check_premium_formats_spec (output : String) :
    (check_premium_formats output = none → ∀ c ∈ premium_candidates output, c.2 = 0) ∧
    (∀ sel, check_premium_formats output = some sel →
      ∃ i c, (premium_candidates output).get? i = some c ∧
        sel = c.1 ++ "+bestaudio/best" ∧ 0 < c.2 ∧
        (∀ c' ∈ premium_candidates output, c'.2 ≤ c.2) ∧
        (∀ j c', j < i → (premium_candidates output).get? j = some c' → c'.2 < c.2)) := by
  have hscan : best_premium_scan output =
      (premium_candidates output).foldl cand_step (none, 0) := scan_eq_cand (pyLines output) (none, 0)
  rcases cand_foldl_spec (premium_candidates output) (none, 0) with ⟨heq, hall⟩ |
    ⟨i, c, hg, he, hlt, hprev, hall⟩
  · constructor
    · intro _ c hc
      have := hall c hc
      omega
    · intro sel hsel
      unfold check_premium_formats at hsel
      rw [hscan, heq] at hsel
      simp at hsel
  · constructor
    · intro hnone
      unfold check_premium_formats at hnone
      rw [hscan, he] at hnone
      simp at hnone
    · intro sel hsel
      unfold check_premium_formats at hsel
      rw [hscan, he] at hsel
      simp only [Option.some.injEq] at hsel
      exact ⟨i, c, hg, hsel.symm, hlt, hall, hprev⟩

/-- Witness for C5 at a concrete listing with two premium lines: the
higher-resolution one (1080) wins. -/
theorem check_premium_formats_spec_witness :
    ∃ i c, (premium_candidates "136 mp4 1280x720 Premium\n137 mp4 1920x1080 Premium").get? i
        = some c ∧
      "137+bestaudio/best" = c.1 ++ "+bestaudio/best" ∧ 0 < c.2 ∧
      (∀ c' ∈ premium_candidates "136 mp4 1280x720 Premium\n137 mp4 1920x1080 Premium",
        c'.2 ≤ c.2) ∧
      (∀ j c', j < i →
        (premium_candidates "136 mp4 1280x720 Premium\n137 mp4 1920x1080 Premium").get? j
          = some c' → c'.2 < c.2) :=
  (check_premium_formats_spec "136 mp4 1280x720 Premium\n137 mp4 1920x1080 Premium").2
    "137+bestaudio/best" (by decide)

/-- Counterexample to C5 as stated: the listing `"251 m4a Premium"` has
exactly one premium-tier entry (identifier 251, height 0 since no
`WxH` pattern occurs), so by the claim the scan should return its
identifier; the code returns nothing because height 0 never exceeds the
initial best height 0. -/
theorem check_premium_formats_counterexample :
    premium_candidates "251 m4a Premium" = [("251", 0)] ∧
    check_premium_formats "251 m4a Premium" = none := by
  exact ⟨by decide, by decide⟩

theorem best_step_foldl_spec (l : List FormatRecord) :
    ∀ b : FormatRecord,
      (l.foldl best_step (some b) = some b ∧ ∀ x ∈ l, x.bitrateKbps ≤ b.bitrateKbps) ∨
      (∃ i r, l.get? i = some r ∧ l.foldl best_step (some b) = some r ∧
        b.bitrateKbps < r.bitrateKbps ∧
        (∀ j x, j < i → l.get? j = some x → x.bitrateKbps < r.bitrateKbps) ∧
        (∀ x ∈ l, x.bitrateKbps ≤ r.bitrateKbps)) := by
  induction l with
  | nil => intro b; left; exact ⟨rfl, by simp⟩
  | cons c cs ih =>
    intro b
    rw [List.foldl_cons]
    by_cases h : b.bitrateKbps < c.bitrateKbps
    · have hstep : best_step (some b) c = some c := by simp [best_step, h]
      rw [hstep]
      rcases ih c with ⟨heq, hall⟩ | ⟨i, r, hg, he, hlt, hprev, hall⟩
      · right
        refine ⟨0, c, rfl, heq, h, ?_, ?_⟩
        · intro j x hj _; omega
        · intro x hx
          rcases List.mem_cons.mp hx with rfl | hmem
          · exact le_refl _
          · exact hall x hmem
      · right
        refine ⟨i + 1, r, hg, he, lt_trans h hlt, ?_, ?_⟩
        · intro j x hj hx
          cases j with
          | zero => injection hx with hx; subst hx; exact hlt
          | succ n => exact hprev n x (Nat.lt_of_succ_lt_succ hj) hx
        · intro x hx
          rcases List.mem_cons.mp hx with rfl | hmem
          · exact le_of_lt hlt
          · exact hall x hmem
    · have hstep : best_step (some b) c = some b := by simp [best_step, h]
      rw [hstep]
      have hcb : c.bitrateKbps ≤ b.bitrateKbps := Nat.le_of_not_lt h
      rcases ih b with ⟨heq, hall⟩ | ⟨i, r, hg, he, hlt, hprev, hall⟩
      · left
        refine ⟨heq, ?_⟩
        intro x hx
        rcases List.mem_cons.mp hx with rfl | hmem
        · exact hcb
        · exact hall x hmem
      · right
        refine ⟨i + 1, r, hg, he, hlt, ?_, ?_⟩
        · intro j x hj hx
          cases j with
          | zero => injection hx with hx; subst hx; exact lt_of_le_of_lt hcb hlt
          | succ n => exact hprev n x (Nat.lt_of_succ_lt_succ hj) hx
        · intro x hx
          rcases List.mem_cons.mp hx with rfl | hmem
          · exact le_of_lt (lt_of_le_of_lt hcb hlt)
          · exact hall x hmem

/-- On a nonempty record list the reduction returns the first record
attaining the maximal bitrate. -/
theorem bestByBitrate_spec (l : List FormatRecord) (hne : l ≠ []) :
    ∃ i b, l.get? i = some b ∧ bestByBitrate l = some b ∧
      (∀ x ∈ l, x.bitrateKbps ≤ b.bitrateKbps) ∧
      (∀ j x, j < i → l.get? j = some x → x.bitrateKbps < b.bitrateKbps) := by
  cases l with
  | nil => exact absurd rfl hne
  | cons c cs =>
    have hfold : bestByBitrate (c :: cs) = cs.foldl best_step (some c) := rfl
    rcases best_step_foldl_spec cs c with ⟨heq, hall⟩ | ⟨i, r, hg, he, hlt, hprev, hall⟩
    · refine ⟨0, c, rfl, by rw [hfold, heq], ?_, ?_⟩
      · intro x hx
        rcases List.mem_cons.mp hx with rfl | hmem
        · exact le_refl _
        · exact hall x hmem
      · intro j x hj _; omega
    · refine ⟨i + 1, r, hg, by rw [hfold, he], ?_, ?_⟩
      · intro x hx
        rcases List.mem_cons.mp hx with rfl | hmem
        · exact le_of_lt hlt
        · exact hall x hmem
      · intro j x hj hx
        cases j with
        | zero => injection hx with hx; subst hx; exact hlt
        | succ n => exact hprev n x (Nat.lt_of_succ_lt_succ hj) hx

/-- Claim C7: on a catalog containing at least one video (mp4) and one
audio (m4a) candidate, `SeparateStreams` selection returns one video
record and one audio record whose bitrate is ≥ every same-container
record's bitrate, each being the first record of its container list
attaining that maximum (ties broken by first-seen order). -/
theorem selectSeparateStreams_spec (catalog : List FormatRecord)
    (hv : ∃ r ∈ catalog, r.container = Container.mp4)
    (ha : ∃ r ∈ catalog, r.container = Container.m4a) :
    ∃ v a, selectSeparateStreams catalog = some (v, a) ∧
      v ∈ catalog ∧ v.container = Container.mp4 ∧
      (∀ r ∈ catalog, r.container = Container.mp4 → r.bitrateKbps ≤ v.bitrateKbps) ∧
      a ∈ catalog ∧ a.container = Container.m4a ∧
      (∀ r ∈ catalog, r.container = Container.m4a → r.bitrateKbps ≤ a.bitrateKbps) ∧
      (∃ iv, (catalog.filter (fun r => decide (r.container = Container.mp4))).get? iv = some v ∧
        ∀ j x, j < iv →
          (catalog.filter (fun r => decide (r.container = Container.mp4))).get? j = some x →
          x.bitrateKbps < v.bitrateKbps) ∧
      (∃ ia, (catalog.filter (fun r => decide (r.container = Container.m4a))).get? ia = some a ∧
        ∀ j x, j < ia →
          (catalog.filter (fun r => decide (r.container = Container.m4a))).get? j = some x →
          x.bitrateKbps < a.bitrateKbps) := by
  obtain ⟨rv, hrv, hcv⟩ := hv
  obtain ⟨ra, hra, hca⟩ := ha
  have hvne : catalog.filter (fun r => decide (r.container = Container.mp4)) ≠ [] :=
    List.ne_nil_of_mem (List.mem_filter.mpr ⟨hrv, by simp [hcv]⟩)
  have hane : catalog.filter (fun r => decide (r.container = Container.m4a)) ≠ [] :=
    List.ne_nil_of_mem (List.mem_filter.mpr ⟨hra, by simp [hca]⟩)
  obtain ⟨iv, v, hgv, hev, hallv, hprevv⟩ := bestByBitrate_spec _ hvne
  obtain ⟨ia, a, hga, hea, halla, hpreva⟩ := bestByBitrate_spec _ hane
  have hvmem := List.mem_filter.mp (List.get?_mem hgv)
  have hamem := List.mem_filter.mp (List.get?_mem hga)
  refine ⟨v, a, ?_, hvmem.1, by simpa using hvmem.2, ?_, hamem.1, by simpa using hamem.2,
    ?_, ⟨iv, hgv, hprevv⟩, ⟨ia, hga, hpreva⟩⟩
  · unfold selectSeparateStreams
    rw [hev, hea]
  · intro r hr hc
    exact hallv r (List.mem_filter.mpr ⟨hr, by simp [hc]⟩)
  · intro r hr hc
    exact halla r (List.mem_filter.mpr ⟨hr, by simp [hc]⟩)

/-- Witness for C7 at the spec's scenario catalog: video id 137 and
audio id 140 are selected. -/
theorem selectSeparateStreams_spec_witness :
    ∃ v a, selectSeparateStreams c7_catalog = some (v, a) ∧
      v ∈ c7_catalog ∧ v.container = Container.mp4 ∧
      (∀ r ∈ c7_catalog, r.container = Container.mp4 → r.bitrateKbps ≤ v.bitrateKbps) ∧
      a ∈ c7_catalog ∧ a.container = Container.m4a ∧
      (∀ r ∈ c7_catalog, r.container = Container.m4a → r.bitrateKbps ≤ a.bitrateKbps) ∧
      (∃ iv, (c7_catalog.filter (fun r => decide (r.container = Container.mp4))).get? iv
          = some v ∧
        ∀ j x, j < iv →
          (c7_catalog.filter (fun r => decide (r.container = Container.mp4))).get? j = some x →
          x.bitrateKbps < v.bitrateKbps) ∧
      (∃ ia, (c7_catalog.filter (fun r => decide (r.container = Container.m4a))).get? ia
          = some a ∧
        ∀ j x, j < ia →
          (c7_catalog.filter (fun r => decide (r.container = Container.m4a))).get? j = some x →
          x.bitrateKbps < a.bitrateKbps) := by
  refine selectSeparateStreams_spec c7_catalog ?_ ?_
  · exact ⟨⟨"137", Container.mp4, 4500, 1080, false⟩, by decide, rfl⟩
  · exact ⟨⟨"140", Container.m4a, 128, 0, false⟩, by decide, rfl⟩

theorem download_video_failed_eq (env : Env) (a : Attempt) (st : Option String)
    (h : env.run a = RunResult.failed st) :
    download_video env a =
      (if detect_platform a.url = "youtube" ∧ a.try_fallback_clients = true ∧
          (sabr_related a.url (st.getD "") = true ∨ pyFalsyStr a.youtube_client = true) then
        (if (try_clients env a (avail_clients a)).1 = true then
          (true, a :: (try_clients env a (avail_clients a)).2)
        else if sabr_related a.url (st.getD "") = true ∧ a.try_sabr = false then
          (run_ok env (retry_attempt env a (some (py_or a.youtube_client "web")) true),
           a :: (try_clients env a (avail_clients a)).2 ++
             [retry_attempt env a (some (py_or a.youtube_client "web")) true])
        else (false, a :: (try_clients env a (avail_clients a)).2))
      else (false, [a])) := by
  unfold download_video
  rw [h]

/-- A recursive call with `try_fallback_clients=False` performs exactly
its single download invocation and returns that invocation's success:
the fallback branch is unreachable.  This is the equivalence that lets
the loop body use `run_ok`. -/
theorem download_video_no_fallback (env : Env) (b : Attempt)
    (h : b.try_fallback_clients = false) :
    download_video env b = (run_ok env b, [b]) := by
  cases hr : env.run b with
  | success => unfold download_video run_ok; rw [hr]
  | timeout => unfold download_video run_ok; rw [hr]
  | failed st =>
    rw [download_video_failed_eq env b st hr]
    rw [if_neg (fun hc => by rw [h] at hc; exact Bool.false_ne_true hc.2.1)]
    unfold run_ok
    rw [hr]

theorem try_clients_all_fail (env : Env) (a : Attempt) :
    ∀ cs : List String,
      (∀ c ∈ cs, run_ok env (retry_attempt env a (some c) false) = false) →
      try_clients env a cs =
        (false, cs.map (fun c => retry_attempt env a (some c) false)) := by
  intro cs
  induction cs with
  | nil => intro _; rfl
  | cons c cs ih =>
    intro h
    have hc : run_ok env (retry_attempt env a (some c) false) = false :=
      h c (List.mem_cons_self c cs)
    unfold try_clients
    rw [if_neg (by simp [hc])]
    rw [ih (fun c' hc' => h c' (List.mem_cons_of_mem c hc'))]
    rfl

theorem try_clients_first_ok (env : Env) (a : Attempt) :
    ∀ (cs : List String) (i : Nat) (c : String),
      cs.get? i = some c →
      run_ok env (retry_attempt env a (some c) false) = true →
      (∀ j c', j < i → cs.get? j = some c' →
        run_ok env (retry_attempt env a (some c') false) = false) →
      try_clients env a cs =
        (true, (cs.take (i + 1)).map (fun c => retry_attempt env a (some c) false)) := by
  intro cs
  induction cs with
  | nil => intro i c hg _ _; simp at hg
  | cons d cs ih =>
    intro i c hg hok hprev
    cases i with
    | zero =>
      injection hg with hg
      subst hg
      unfold try_clients
      rw [if_pos hok]
      rfl
    | succ n =>
      have hd : run_ok env (retry_attempt env a (some d) false) = false :=
        hprev 0 d (Nat.succ_pos n) rfl
      unfold try_clients
      rw [if_neg (by simp [hd])]
      rw [ih n c hg hok (fun j c' hj hgj => hprev (j + 1) c' (Nat.succ_lt_succ hj) hgj)]
      rfl

theorem try_clients_length (env : Env) (a : Attempt) :
    ∀ cs : List String, (try_clients env a cs).2.length ≤ cs.length := by
  intro cs
  induction cs with
  | nil => simp [try_clients]
  | cons c cs ih =>
    unfold try_clients
    by_cases h : run_ok env (retry_attempt env a (some c) false) = true
    · rw [if_pos h]
      simp
    · rw [if_neg h]
      simpa using ih

theorem try_clients_mem (env : Env) (a : Attempt) :
    ∀ cs : List String, ∀ b ∈ (try_clients env a cs).2,
      ∃ c, c ∈ cs ∧ b = retry_attempt env a (some c) false := by
  intro cs
  induction cs with
  | nil => intro b hb; simp [try_clients] at hb
  | cons c cs ih =>
    intro b hb
    unfold try_clients at hb
    by_cases h : run_ok env (retry_attempt env a (some c) false) = true
    · rw [if_pos h] at hb
      rcases List.mem_singleton.mp hb with rfl
      exact ⟨c, List.mem_cons_self c cs, rfl⟩
    · rw [if_neg h] at hb
      rcases List.mem_cons.mp hb with rfl | hmem
      · exact ⟨c, List.mem_cons_self c cs, rfl⟩
      · obtain ⟨c', hc', rfl⟩ := ih b hmem
        exact ⟨c', List.mem_cons_of_mem c hc', rfl⟩

/-- Every invocation after the primary one is a `retry_attempt` of the
primary invocation. -/
theorem download_video_tail_retry (env : Env) (a : Attempt) :
    ∀ b ∈ (download_video env a).2.drop 1, ∃ c sbr, b = retry_attempt env a c sbr := by
  cases hr : env.run a with
  | success =>
    rw [show download_video env a = (true, [a]) from by unfold download_video; rw [hr]]
    intro b hb
    simp at hb
  | timeout =>
    rw [show download_video env a = (false, [a]) from by unfold download_video; rw [hr]]
    intro b hb
    simp at hb
  | failed st =>
    rw [download_video_failed_eq env a st hr]
    by_cases hc : detect_platform a.url = "youtube" ∧ a.try_fallback_clients = true ∧
        (sabr_related a.url (st.getD "") = true ∨ pyFalsyStr a.youtube_client = true)
    · rw [if_pos hc]
      by_cases hb1 : (try_clients env a (avail_clients a)).1 = true
      · rw [if_pos hb1]
        intro b hb
        obtain ⟨c, _, rfl⟩ := try_clients_mem env a (avail_clients a) b hb
        exact ⟨some c, false, rfl⟩
      · rw [if_neg hb1]
        by_cases hs : sabr_related a.url (st.getD "") = true ∧ a.try_sabr = false
        · rw [if_pos hs]
          intro b hb
          rcases List.mem_append.mp hb with hmem | hmem
          · obtain ⟨c, _, rfl⟩ := try_clients_mem env a (avail_clients a) b hmem
            exact ⟨some c, false, rfl⟩
          · rcases List.mem_singleton.mp hmem with rfl
            exact ⟨some (py_or a.youtube_client "web"), true, rfl⟩
        · rw [if_neg hs]
          intro b hb
          obtain ⟨c, _, rfl⟩ := try_clients_mem env a (avail_clients a) b hb
          exact ⟨some c, false, rfl⟩
    · rw [if_neg hc]
      intro b hb
      simp at hb

/-- Claim C1: for a failed primary download invocation
(`CalledProcessError`, carrying stderr `st`) on a youtube-classified
URL with client-fallback permitted, the fallback-client branch is
entered iff the captured diagnostic text contains one of the known
platform-restriction phrases or the supplied client identity is falsy
(`None` or `""`): outside the branch the job performs only the primary
invocation, and inside it each alternate client identity of
`avail_clients` is tried in order — one full attempt per identity, cf.
`download_video_no_fallback` — stopping at the first success.
(A `TimeoutExpired` primary returns `False` directly, source lines
320-322, so only `CalledProcessError` failures are concerned.) -/
theorem download_video_fallback_branch (env : Env) (a : Attempt) (st : Option String)
    (hplat : detect_platform a.url = "youtube")
    (htfc : a.try_fallback_clients = true)
    (hrun : env.run a = RunResult.failed st) :
    ((sabr_related a.url (st.getD "") = false ∧ pyFalsyStr a.youtube_client = false) →
      download_video env a = (false, [a])) ∧
    ((sabr_related a.url (st.getD "") = true ∨ pyFalsyStr a.youtube_client = true) →
      ((∀ c ∈ avail_clients a, run_ok env (retry_attempt env a (some c) false) = false) →
        ∃ tail, (download_video env a).2 =
          a :: (avail_clients a).map (fun c => retry_attempt env a (some c) false) ++ tail) ∧
      (∀ i c, (avail_clients a).get? i = some c →
        run_ok env (retry_attempt env a (some c) false) = true →
        (∀ j c', j < i → (avail_clients a).get? j = some c' →
          run_ok env (retry_attempt env a (some c') false) = false) →
        download_video env a =
          (true, a :: ((avail_clients a).take (i + 1)).map
            (fun c => retry_attempt env a (some c) false)))) := by
  constructor
  · intro h
    rw [download_video_failed_eq env a st hrun]
    rw [if_neg]
    intro hcond
    rcases hcond.2.2 with h2 | h2
    · rw [h.1] at h2
      exact Bool.false_ne_true h2
    · rw [h.2] at h2
      exact Bool.false_ne_true h2
  · intro hor
    constructor
    · intro hall
      rw [download_video_failed_eq env a st hrun]
      rw [if_pos ⟨hplat, htfc, hor⟩]
      rw [try_clients_all_fail env a (avail_clients a) hall]
      by_cases hs : sabr_related a.url (st.getD "") = true ∧ a.try_sabr = false
      · rw [if_neg (by simp), if_pos hs]
        exact ⟨[retry_attempt env a (some (py_or a.youtube_client "web")) true], rfl⟩
      · rw [if_neg (by simp), if_neg hs]
        exact ⟨[], by simp⟩
    · intro i c hg hok hprev
      rw [download_video_failed_eq env a st hrun]
      rw [if_pos ⟨hplat, htfc, hor⟩]
      rw [try_clients_first_ok env a (avail_clients a) i c hg hok hprev]
      rw [if_pos rfl]

/-- Witness for C1: with no explicit client and a primary failure, the
clients are tried in table order and the run stops at the second one
(`android`), which succeeds. -/
theorem download_video_fallback_branch_witness :
    download_video env_android_ok att_none =
      (true, att_none :: ((avail_clients att_none).take 2).map
        (fun c => retry_attempt env_android_ok att_none (some c) false)) := by
  refine (download_video_fallback_branch env_android_ok att_none (some "")
      (by decide) rfl (by decide)).2 (Or.inr (by decide)) |>.2 1 "android"
      (by decide) (by decide) ?_
  intro j c' hj hg
  have hj0 : j = 0 := by omega
  subst hj0
  have h3 : (avail_clients att_none).get? 0 = some "web" := by decide
  rw [h3] at hg
  injection hg with hg
  subst hg
  decide

theorem filter_sabr_map_nil (env : Env) (a : Attempt) (cs : List String) :
    ((cs.map (fun c => retry_attempt env a (some c) false)).filter
      (fun b => b.try_sabr)) = [] := by
  rw [List.filter_eq_nil_iff]
  intro b hb
  obtain ⟨c, _, rfl⟩ := List.mem_map.mp hb
  simp [retry_attempt]

/-- Claim C2 (amended): on a youtube download whose primary attempt
fails with a SABR-restriction diagnostic, with fallback enabled and
alternate mode (`try_sabr`) not yet tried, after all alternate client
identities fail exactly one additional attempt runs with the alternate
streaming mode enabled, using the originally supplied client identity
when one was given and the default `web` otherwise (`youtube_client or
'web'`, source line 311); if it also fails the job ends in failure.
(The original claim's "a default client identity" fails when an
explicit client was supplied — see the counterexample.) -/
theorem download_video_alternate_mode (env : Env) (a : Attempt) (st : Option String)
    (hplat : detect_platform a.url = "youtube")
    (htfc : a.try_fallback_clients = true)
    (hsb : a.try_sabr = false)
    (hrun : env.run a = RunResult.failed st)
    (hsr : sabr_related a.url (st.getD "") = true)
    (hall : ∀ c ∈ avail_clients a, run_ok env (retry_attempt env a (some c) false) = false) :
    download_video env a =
      (run_ok env (retry_attempt env a (some (py_or a.youtube_client "web")) true),
       a :: (avail_clients a).map (fun c => retry_attempt env a (some c) false) ++
         [retry_attempt env a (some (py_or a.youtube_client "web")) true]) ∧
    (retry_attempt env a (some (py_or a.youtube_client "web")) true).try_sabr = true ∧
    (retry_attempt env a (some (py_or a.youtube_client "web")) true).youtube_client =
      some (py_or a.youtube_client "web") ∧
    ((download_video env a).2.filter (fun b => b.try_sabr)).length = 1 ∧
    (run_ok env (retry_attempt env a (some (py_or a.youtube_client "web")) true) = false →
      (download_video env a).1 = false) := by
  have heq : download_video env a =
      (run_ok env (retry_attempt env a (some (py_or a.youtube_client "web")) true),
       a :: (avail_clients a).map (fun c => retry_attempt env a (some c) false) ++
         [retry_attempt env a (some (py_or a.youtube_client "web")) true]) := by
    rw [download_video_failed_eq env a st hrun]
    rw [if_pos ⟨hplat, htfc, Or.inl hsr⟩]
    rw [try_clients_all_fail env a (avail_clients a) hall]
    rw [if_neg (by simp), if_pos ⟨hsr, hsb⟩]
  refine ⟨heq, rfl, rfl, ?_, ?_⟩
  · rw [heq]
    have hmap := filter_sabr_map_nil env a (avail_clients a)
    simp [List.filter_append, List.filter_cons, hsb, hmap, retry_attempt]
  · intro hfail
    rw [heq]
    exact hfail

/-- Witness for C2 at a concrete all-failing environment with no
explicit client: the alternate-mode attempt uses the default `web`. -/
theorem download_video_alternate_mode_witness :
    download_video env_sabr_fail att_none =
      (run_ok env_sabr_fail
        (retry_attempt env_sabr_fail att_none (some (py_or att_none.youtube_client "web")) true),
       att_none :: (avail_clients att_none).map
          (fun c => retry_attempt env_sabr_fail att_none (some c) false) ++
        [retry_attempt env_sabr_fail att_none (some (py_or att_none.youtube_client "web")) true]) ∧
    (retry_attempt env_sabr_fail att_none
        (some (py_or att_none.youtube_client "web")) true).try_sabr = true ∧
    (retry_attempt env_sabr_fail att_none
        (some (py_or att_none.youtube_client "web")) true).youtube_client =
      some (py_or att_none.youtube_client "web") ∧
    ((download_video env_sabr_fail att_none).2.filter (fun b => b.try_sabr)).length = 1 ∧
    (run_ok env_sabr_fail
        (retry_attempt env_sabr_fail att_none (some (py_or att_none.youtube_client "web")) true)
        = false →
      (download_video env_sabr_fail att_none).1 = false) :=
  download_video_alternate_mode env_sabr_fail att_none (some "only SABR formats")
    (by decide) rfl rfl (by decide) (by decide) (by decide)

/-- Counterexample to C2 as stated: with the explicit client `android`
supplied, every invocation failing with a SABR diagnostic, the single
alternate-mode attempt (the one with `try_sabr = true`) carries the
client identity `android` — not a default client identity (`web`). -/
theorem download_video_default_client_counterexample :
    (download_video env_sabr_fail att_android).2.map (fun b => (b.youtube_client, b.try_sabr)) =
      [(some "android", false), (some "web", false), (some "tv", false),
       (some "web_music", false), (some "android_music", false), (some "android", true)] ∧
    (some "android" : Option String) ≠ some "web" := ⟨by decide, by decide⟩

/-- Claim C3: for every environment and every invocation parameters,
one user-initiated download performs at most
`2 + |YOUTUBE_CLIENTS|` download invocations — one primary, at most one
per known alternate client identity, at most one alternate-mode
attempt — before returning.  Termination itself is witnessed by
`download_video` being a total Lean function (the source recursion is
depth-bounded: every recursive call disables `try_fallback_clients`). -/
theorem download_video_invocation_bound (env : Env) (a : Attempt) :
    (download_video env a).2.length ≤ 2 + YOUTUBE_CLIENTS.length := by
  have h5 : YOUTUBE_CLIENTS.length = 5 := rfl
  cases hr : env.run a with
  | success =>
    rw [show download_video env a = (true, [a]) from by unfold download_video; rw [hr]]
    show ([a] : List Attempt).length ≤ 2 + YOUTUBE_CLIENTS.length
    rw [List.length_singleton]
    omega
  | timeout =>
    rw [show download_video env a = (false, [a]) from by unfold download_video; rw [hr]]
    show ([a] : List Attempt).length ≤ 2 + YOUTUBE_CLIENTS.length
    rw [List.length_singleton]
    omega
  | failed st =>
    rw [download_video_failed_eq env a st hr]
    have h1 := try_clients_length env a (avail_clients a)
    have h2 : (avail_clients a).length ≤ YOUTUBE_CLIENTS.length :=
      List.length_filter_le _ _
    by_cases hc : detect_platform a.url = "youtube" ∧ a.try_fallback_clients = true ∧
        (sabr_related a.url (st.getD "") = true ∨ pyFalsyStr a.youtube_client = true)
    · rw [if_pos hc]
      by_cases hb : (try_clients env a (avail_clients a)).1 = true
      · rw [if_pos hb]
        show (a :: (try_clients env a (avail_clients a)).2).length ≤ 2 + YOUTUBE_CLIENTS.length
        rw [List.length_cons]
        omega
      · rw [if_neg hb]
        by_cases hs : sabr_related a.url (st.getD "") = true ∧ a.try_sabr = false
        · rw [if_pos hs]
          show (a :: (try_clients env a (avail_clients a)).2 ++
              [retry_attempt env a (some (py_or a.youtube_client "web")) true]).length ≤
            2 + YOUTUBE_CLIENTS.length
          rw [List.length_append, List.length_cons, List.length_singleton]
          omega
        · rw [if_neg hs]
          show (a :: (try_clients env a (avail_clients a)).2).length ≤ 2 + YOUTUBE_CLIENTS.length
          rw [List.length_cons]
          omega
    · rw [if_neg hc]
      show ([a] : List Attempt).length ≤ 2 + YOUTUBE_CLIENTS.length
      rw [List.length_singleton]
      omega

/-- Claim C4: within one job, every invocation issued from inside the
fallback-client or alternate-mode phase has client-fallback disabled
(so neither phase can ever be re-entered from it, cf.
`download_video_no_fallback`), and when the job starts with the
alternate-mode flag unset, every invocation before the final one has it
still unset — the flag is consumed at most once, by the last
invocation, and never re-enabled. -/
theorem download_video_no_reentry (env : Env) (a : Attempt) :
    (∀ b ∈ (download_video env a).2.drop 1, b.try_fallback_clients = false) ∧
    (a.try_sabr = false →
      ∀ b ∈ (download_video env a).2.dropLast, b.try_sabr = false) := by
  constructor
  · intro b hb
    obtain ⟨c, sbr, rfl⟩ := download_video_tail_retry env a b hb
    rfl
  · intro hsb
    cases hr : env.run a with
    | success =>
      rw [show download_video env a = (true, [a]) from by unfold download_video; rw [hr]]
      intro b hb
      simp at hb
    | timeout =>
      rw [show download_video env a = (false, [a]) from by unfold download_video; rw [hr]]
      intro b hb
      simp at hb
    | failed st =>
      rw [download_video_failed_eq env a st hr]
      by_cases hc : detect_platform a.url = "youtube" ∧ a.try_fallback_clients = true ∧
          (sabr_related a.url (st.getD "") = true ∨ pyFalsyStr a.youtube_client = true)
      · rw [if_pos hc]
        by_cases hb1 : (try_clients env a (avail_clients a)).1 = true
        · rw [if_pos hb1]
          intro b hb
          have hmem : b ∈ a :: (try_clients env a (avail_clients a)).2 :=
            List.mem_of_mem_dropLast hb
          rcases List.mem_cons.mp hmem with rfl | hmem2
          · exact hsb
          · obtain ⟨c, _, rfl⟩ := try_clients_mem env a (avail_clients a) b hmem2
            rfl
        · rw [if_neg hb1]
          by_cases hs : sabr_related a.url (st.getD "") = true ∧ a.try_sabr = false
          · rw [if_pos hs]
            intro b hb
            have hshape : (a :: (try_clients env a (avail_clients a)).2 ++
                [retry_attempt env a (some (py_or a.youtube_client "web")) true]).dropLast =
                a :: (try_clients env a (avail_clients a)).2 := by
              rw [show a :: (try_clients env a (avail_clients a)).2 ++
                  [retry_attempt env a (some (py_or a.youtube_client "web")) true] =
                  (a :: (try_clients env a (avail_clients a)).2) ++
                  [retry_attempt env a (some (py_or a.youtube_client "web")) true] from rfl]
              exact List.dropLast_concat
            rw [hshape] at hb
            rcases List.mem_cons.mp hb with rfl | hmem2
            · exact hsb
            · obtain ⟨c, _, rfl⟩ := try_clients_mem env a (avail_clients a) b hmem2
              rfl
          · rw [if_neg hs]
            intro b hb
            have hmem : b ∈ a :: (try_clients env a (avail_clients a)).2 :=
              List.mem_of_mem_dropLast hb
            rcases List.mem_cons.mp hmem with rfl | hmem2
            · exact hsb
            · obtain ⟨c, _, rfl⟩ := try_clients_mem env a (avail_clients a) b hmem2
              rfl
      · rw [if_neg hc]
        intro b hb
        simp at hb

/-- Witness for C4 at a concrete environment where the full fallback
cascade runs. -/
theorem download_video_no_reentry_witness :
    (∀ b ∈ (download_video env_sabr_fail att_android).2.drop 1,
      b.try_fallback_clients = false) ∧
    (∀ b ∈ (download_video env_sabr_fail att_android).2.dropLast, b.try_sabr = false) :=
  ⟨(download_video_no_reentry env_sabr_fail att_android).1,
   (download_video_no_reentry env_sabr_fail att_android).2 rfl⟩

/-- Claim C10: every fallback-client and alternate-mode retry receives
the caller's pass-through arguments with exactly the argument strings
containing `--extractor-args` removed (a filter, so the remaining
arguments keep their original order), the same URL, and the primary
attempt's resolved format selector. -/
theorem download_video_retry_forwarding (env : Env) (a : Attempt) :
    ∀ b ∈ (download_video env a).2.drop 1,
      b.extra_args = a.extra_args.filter (fun x => !(strContains x extractor_args_token)) ∧
      b.url = a.url ∧
      b.format_selector =
        some (resolve_selector env a.url a.format_selector a.prefer_premium) := by
  intro b hb
  obtain ⟨c, sbr, rfl⟩ := download_video_tail_retry env a b hb
  exact ⟨rfl, rfl, rfl⟩

set_option maxRecDepth 8000 in
/-- Witness for C10: the first fallback retry of a job whose extra
arguments contain an `--extractor-args` item. -/
theorem download_video_retry_forwarding_witness :
    (retry_attempt env_sabr_fail att_xargs (some "web") false).extra_args =
      att_xargs.extra_args.filter (fun x => !(strContains x extractor_args_token)) ∧
    (retry_attempt env_sabr_fail att_xargs (some "web") false).url = att_xargs.url ∧
    (retry_attempt env_sabr_fail att_xargs (some "web") false).format_selector =
      some (resolve_selector env_sabr_fail att_xargs.url att_xargs.format_selector
        att_xargs.prefer_premium) :=
  download_video_retry_forwarding env_sabr_fail att_xargs
    (retry_attempt env_sabr_fail att_xargs (some "web") false) (by decide)
